import Mathlib

/-!
Verification of the admission-control and resilience layer of the FASTAPI
tutorial repository: the circuit breaker, service registry and gateway proxy
from 13_architecture_mastery/13_api_gateway.py, and the three rate limiters
from 13_architecture_mastery/13_rate_limiting.py.

Embedding conventions:
* Wall-clock time (Python time.time() / datetime.utcnow()) is passed
  explicitly as a rational number of seconds.
* Python ints and floats used in arithmetic with times/tokens are embedded
  into the rationals.
* Python dicts keyed by strings become functions String → Option _
  (defaultdict becomes a total function returning the default value).
* Methods mutating self become functions returning the new state
  (paired with the return value where the method returns one).
-/

/-- Pointwise update of a string-keyed map, modelling a Python dict
assignment d[k] = v. -/
def updMap {α : Type} (f : String → α) (k : String) (v : α) : String → α :=
  fun n => if n = k then v else f n

theorem updMap_same {α : Type} (f : String → α) (k : String) (v : α) :
    updMap f k v k = v := by simp [updMap]

theorem updMap_other {α : Type} (f : String → α) (k : String) (v : α)
    (n : String) (h : n ≠ k) : updMap f k v n = f n := by simp [updMap, h]

namespace Gateway

/-- CircuitState enum from 13_api_gateway.py (the constructor keyword forces
renaming OPEN to opened). -/
inductive CircuitState where
  | closed
  | opened
  | halfOpen
deriving DecidableEq, Repr

/-- CircuitBreaker from 13_api_gateway.py: failure threshold / cooldown
configuration plus mutable failure count, last failure time and state. -/
structure CircuitBreaker where
  failure_threshold : Nat
  timeout_seconds : ℚ
  failure_count : Nat
  last_failure_time : Option ℚ
  state : CircuitState
deriving DecidableEq, Repr

namespace CircuitBreaker

/-- CircuitBreaker.__init__: count 0, no last failure, state CLOSED. -/
def init (failure_threshold : Nat) (timeout_seconds : ℚ) : CircuitBreaker :=
  { failure_threshold := failure_threshold
    timeout_seconds := timeout_seconds
    failure_count := 0
    last_failure_time := none
    state := .closed }

/-- CircuitBreaker.record_success: reset the failure count; turn HALF_OPEN
into CLOSED, otherwise keep the state. -/
def record_success (cb : CircuitBreaker) : CircuitBreaker :=
  { cb with
    failure_count := 0
    state := if cb.state = .halfOpen then .closed else cb.state }

/-- CircuitBreaker.record_failure at time `now`: increment the count, stamp
the failure time, open the circuit once the threshold is reached. -/
def record_failure (cb : CircuitBreaker) (now : ℚ) : CircuitBreaker :=
  let fc := cb.failure_count + 1
  { cb with
    failure_count := fc
    last_failure_time := some now
    state := if cb.failure_threshold ≤ fc then .opened else cb.state }

/-- CircuitBreaker.can_attempt at time `now`: CLOSED always passes; OPEN
passes (and moves to HALF_OPEN) only once `timeout_seconds` have elapsed
since the last failure; HALF_OPEN always passes. Returns the boolean
together with the (possibly mutated) breaker. -/
def can_attempt (cb : CircuitBreaker) (now : ℚ) : Bool × CircuitBreaker :=
  match cb.state with
  | .closed => (true, cb)
  | .opened =>
    match cb.last_failure_time with
    | some t =>
      if cb.timeout_seconds ≤ now - t then
        (true, { cb with state := .halfOpen })
      else
        (false, cb)
    | none => (false, cb)
  | .halfOpen => (true, cb)

/-- A sequence of consecutive record_failure calls at the given times. -/
def recordFailures (cb : CircuitBreaker) (times : List ℚ) : CircuitBreaker :=
  times.foldl record_failure cb

end CircuitBreaker

/-- The circuit-breaker settings of ServiceConfig in 13_api_gateway.py. -/
def FAILURE_THRESHOLD : Nat := 5

/-- ServiceConfig.TIMEOUT_SECONDS. -/
def TIMEOUT_SECONDS : ℚ := 30

/-- ServiceRegistry from 13_api_gateway.py: service URL lists, round-robin
indices, and one circuit breaker per service. -/
structure ServiceRegistry where
  services : String → Option (List String)
  current_index : String → Option Nat
  circuit_breakers : String → Option CircuitBreaker

namespace ServiceRegistry

/-- ServiceRegistry.__init__: the three default backend services, no
round-robin indices, no circuit breakers. -/
def init : ServiceRegistry :=
  { services := fun name =>
      if name = "users" then some ["http://localhost:8001"]
      else if name = "products" then some ["http://localhost:8002"]
      else if name = "orders" then some ["http://localhost:8003"]
      else none
    current_index := fun _ => none
    circuit_breakers := fun _ => none }

/-- ServiceRegistry.register_service: insert an empty list when the name is
missing, then append the url if it is not already present. -/
def register_service (r : ServiceRegistry) (name url : String) : ServiceRegistry :=
  let r1 :=
    match r.services name with
    | none => { r with services := updMap r.services name (some []) }
    | some _ => r
  match r1.services name with
  | none => r1
  | some urls =>
    if url ∈ urls then r1
    else { r1 with services := updMap r1.services name (some (urls ++ [url])) }

/-- ServiceRegistry.get_service_url: round-robin selection. Returns None for
an unknown service or an empty URL list; otherwise persists a 0 index when
none is stored, reads the URL at the index, then advances the index modulo
the list length. A Python IndexError (stored index out of range, unreachable
through this API) is modelled as a None result. -/
def get_service_url (r : ServiceRegistry) (name : String) :
    Option String × ServiceRegistry :=
  match r.services name with
  | none => (none, r)
  | some urls =>
    if urls = [] then (none, r)
    else
      let i := (r.current_index name).getD 0
      let r1 := { r with current_index := updMap r.current_index name (some i) }
      match urls[i]? with
      | none => (none, r1)
      | some url =>
        (some url,
          { r1 with current_index := updMap r1.current_index name (some ((i + 1) % urls.length)) })

/-- ServiceRegistry.get_circuit_breaker: return the breaker for the service,
lazily creating one with the ServiceConfig settings. -/
def get_circuit_breaker (r : ServiceRegistry) (service_name : String) :
    CircuitBreaker × ServiceRegistry :=
  match r.circuit_breakers service_name with
  | some cb => (cb, r)
  | none =>
    let cb := CircuitBreaker.init FAILURE_THRESHOLD TIMEOUT_SECONDS
    (cb, { r with circuit_breakers := updMap r.circuit_breakers service_name (some cb) })

/-- In-place mutation of the breaker object shared with the registry, as a
functional write-back. -/
def setBreaker (r : ServiceRegistry) (name : String) (cb : CircuitBreaker) :
    ServiceRegistry :=
  { r with circuit_breakers := updMap r.circuit_breakers name (some cb) }

/-- The registry after n round-robin selections for the same service. -/
def iterState (r : ServiceRegistry) (name : String) : Nat → ServiceRegistry
  | 0 => r
  | n + 1 => (get_service_url (iterState r name n) name).2

/-- The URL produced by the (n+1)-st get_service_url call (0-based n). -/
def nthUrl (r : ServiceRegistry) (name : String) (n : Nat) : Option String :=
  (get_service_url (iterState r name n) name).1

end ServiceRegistry

/-- A backend HTTP response as far as the gateway logic inspects it. -/
structure HttpResponse where
  status_code : Nat
  text : String
deriving DecidableEq, Repr

/-- Outcome of one outbound HTTP call: either the await returns a response
(any status code), or it raises httpx.RequestError / httpx.TimeoutException
with a message. -/
inductive TransportOutcome where
  | response (resp : HttpResponse)
  | requestError (msg : String)
deriving DecidableEq, Repr

/-- Result of APIGateway.proxy_request: the returned payload, a raised
HTTPException, or the ValueError raised for an unsupported method. -/
inductive ProxyResult where
  | success (status_code : Nat) (text : String)
  | httpError (status : Nat) (detail : String)
  | valueError (msg : String)
deriving DecidableEq, Repr

/-- APIGateway.proxy_request from 13_api_gateway.py. The outbound HTTP layer
is abstracted as a transport oracle from the full URL to an outcome; the
third component of the result counts transport invocations. Steps: fetch
(lazily creating) the circuit breaker; consult can_attempt (persisting its
mutation); on refusal fail with the circuit-open 503. Resolve a URL via
round-robin; a missing (or falsy, i.e. empty-string) URL fails with the
not-found 503. Dispatch on the HTTP method; on a transport response record
a breaker success and return the payload; on a transport error record a
breaker failure and fail with a 503 carrying the error text. -/
def proxy_request (r : ServiceRegistry) (transport : String → TransportOutcome)
    (service_name path method : String) (now : ℚ) :
    ProxyResult × ServiceRegistry × Nat :=
  let cbr := ServiceRegistry.get_circuit_breaker r service_name
  let att := CircuitBreaker.can_attempt cbr.1 now
  let r2 := ServiceRegistry.setBreaker cbr.2 service_name att.2
  if att.1 = false then
    (.httpError 503
      ("Service " ++ service_name ++ " is currently unavailable (circuit open)"),
      r2, 0)
  else
    let ur := ServiceRegistry.get_service_url r2 service_name
    match ur.1 with
    | none =>
      (.httpError 503 ("Service " ++ service_name ++ " not found"), ur.2, 0)
    | some url =>
      if url = "" then
        (.httpError 503 ("Service " ++ service_name ++ " not found"), ur.2, 0)
      else
        let full_url := url ++ path
        if method = "GET" ∨ method = "POST" ∨ method = "PUT" ∨ method = "DELETE" then
          match transport full_url with
          | .response resp =>
            (.success resp.status_code resp.text,
              ServiceRegistry.setBreaker ur.2 service_name
                (CircuitBreaker.record_success att.2), 1)
          | .requestError msg =>
            (.httpError 503
              ("Service " ++ service_name ++ " unavailable: " ++ msg),
              ServiceRegistry.setBreaker ur.2 service_name
                (CircuitBreaker.record_failure att.2 now), 1)
        else
          (.valueError ("Unsupported method: " ++ method), ur.2, 0)

end Gateway

namespace RateLimiting

/-- One token-bucket entry from 13_rate_limiting.py. -/
structure Bucket where
  tokens : ℚ
  last_update : ℚ
deriving DecidableEq, Repr

/-- TokenBucketLimiter from 13_rate_limiting.py. -/
structure TokenBucketLimiter where
  capacity : ℚ
  refill_rate : ℚ
  buckets : String → Option Bucket

namespace TokenBucketLimiter

/-- TokenBucketLimiter.__init__: empty bucket map. -/
def init (capacity refill_rate : ℚ) : TokenBucketLimiter :=
  ⟨capacity, refill_rate, fun _ => none⟩

/-- TokenBucketLimiter._get_bucket: return the bucket for the key, creating
a full bucket stamped with the current time when the key is new. -/
def get_bucket (l : TokenBucketLimiter) (key : String) (now : ℚ) :
    Bucket × TokenBucketLimiter :=
  match l.buckets key with
  | some b => (b, l)
  | none =>
    let b : Bucket := ⟨l.capacity, now⟩
    (b, { l with buckets := updMap l.buckets key (some b) })

/-- TokenBucketLimiter._refill_tokens: add elapsed * refill_rate tokens,
capped at capacity, and stamp the bucket with the current time. -/
def refill_tokens (capacity refill_rate : ℚ) (b : Bucket) (now : ℚ) : Bucket :=
  ⟨min capacity (b.tokens + (now - b.last_update) * refill_rate), now⟩

/-- TokenBucketLimiter.allow_request: fetch (or create) the bucket, refill,
then grant and debit when the tokens cover the need, else refuse; the
refilled bucket is persisted either way. -/
def allow_request (l : TokenBucketLimiter) (key : String) (now tokens_needed : ℚ) :
    Bool × TokenBucketLimiter :=
  let bl := get_bucket l key now
  let b := refill_tokens bl.2.capacity bl.2.refill_rate bl.1 now
  if tokens_needed ≤ b.tokens then
    (true, { bl.2 with buckets := updMap bl.2.buckets key (some ⟨b.tokens - tokens_needed, b.last_update⟩) })
  else
    (false, { bl.2 with buckets := updMap bl.2.buckets key (some b) })

/-- One allow_request invocation: key, wall-clock time, tokens needed. -/
structure TBCall where
  key : String
  time : ℚ
  needed : ℚ

/-- A finite sequence of allow_request calls, applied in order. -/
def processCalls (l : TokenBucketLimiter) (calls : List TBCall) :
    TokenBucketLimiter :=
  calls.foldl (fun l c => (allow_request l c.key c.time c.needed).2) l

/-- Every stored bucket holds between 0 and capacity tokens and was last
updated no later than t. -/
def BucketsInv (l : TokenBucketLimiter) (t : ℚ) : Prop :=
  ∀ k b, l.buckets k = some b →
    0 ≤ b.tokens ∧ b.tokens ≤ l.capacity ∧ b.last_update ≤ t

end TokenBucketLimiter

/-- SlidingWindowLimiter from 13_rate_limiting.py. The per-key deque of
request timestamps is a list whose head is the left (oldest) end; the
defaultdict is a total map returning the empty list. -/
structure SlidingWindowLimiter where
  max_requests : Nat
  window_seconds : ℚ
  requests : String → List ℚ

namespace SlidingWindowLimiter

/-- SlidingWindowLimiter.__init__. -/
def init (max_requests : Nat) (window_seconds : ℚ) : SlidingWindowLimiter :=
  ⟨max_requests, window_seconds, fun _ => []⟩

/-- SlidingWindowLimiter._cleanup_old_requests: pop timestamps from the left
while they are older than now - window_seconds. -/
def cleanup_old_requests (l : SlidingWindowLimiter) (key : String) (now : ℚ) :
    SlidingWindowLimiter :=
  { l with requests := updMap l.requests key ((l.requests key).dropWhile (fun t => decide (t < now - l.window_seconds))) }

/-- SlidingWindowLimiter.allow_request: evict, then append `now` and grant
iff the surviving count is below max_requests. -/
def allow_request (l : SlidingWindowLimiter) (key : String) (now : ℚ) :
    Bool × SlidingWindowLimiter :=
  let l1 := cleanup_old_requests l key now
  if (l1.requests key).length < l1.max_requests then
    (true, { l1 with requests := updMap l1.requests key (l1.requests key ++ [now]) })
  else
    (false, l1)

/-- SlidingWindowLimiter.get_reset_time: 0 for an empty stored sequence,
else max(0, stored_head + window_seconds - now). Note the source performs
no eviction here. -/
def get_reset_time (l : SlidingWindowLimiter) (key : String) (now : ℚ) : ℚ :=
  match l.requests key with
  | [] => 0
  | t :: _ => max 0 (t + l.window_seconds - now)

/-- The reset time as the C4 sentence of the spec words it: evict timestamps
older than now - window_seconds first, then take max(0, head + window - now)
of the surviving sequence, 0 when it is empty. Stated for comparison with
get_reset_time, which skips the eviction. -/
def resetTimeSpec (l : SlidingWindowLimiter) (key : String) (now : ℚ) : ℚ :=
  match (l.requests key).dropWhile (fun t => decide (t < now - l.window_seconds)) with
  | [] => 0
  | t :: _ => max 0 (t + l.window_seconds - now)

end SlidingWindowLimiter

/-- Python int(): truncation toward zero. -/
def pyInt (q : ℚ) : ℤ := if q < 0 then ⌈q⌉ else ⌊q⌋

/-- One fixed-window entry from 13_rate_limiting.py. -/
structure FWindow where
  start : ℤ
  count : Nat
deriving DecidableEq, Repr

/-- FixedWindowCounter from 13_rate_limiting.py. -/
structure FixedWindowCounter where
  max_requests : Nat
  window_seconds : ℤ
  windows : String → Option FWindow

namespace FixedWindowCounter

/-- FixedWindowCounter.__init__: empty window map. -/
def init (max_requests : Nat) (window_seconds : ℤ) : FixedWindowCounter :=
  ⟨max_requests, window_seconds, fun _ => none⟩

/-- The epoch-aligned window start int(now / window_seconds) * window_seconds. -/
def window_start (window_seconds : ℤ) (now : ℚ) : ℤ :=
  pyInt (now / (window_seconds : ℚ)) * window_seconds

/-- FixedWindowCounter._get_current_window: reset (and persist) a zero
counter when the key is new or its stored window start is stale; otherwise
return the stored window untouched. -/
def get_current_window (l : FixedWindowCounter) (key : String) (now : ℚ) :
    FWindow × FixedWindowCounter :=
  let ws := window_start l.window_seconds now
  match l.windows key with
  | some win =>
    if win.start = ws then (win, l)
    else
      (⟨ws, 0⟩, { l with windows := updMap l.windows key (some ⟨ws, 0⟩) })
  | none =>
    (⟨ws, 0⟩, { l with windows := updMap l.windows key (some ⟨ws, 0⟩) })

/-- The window start as the C3 sentence words it:
floor(now / window_seconds) * window_seconds. -/
def windowStartSpec (window_seconds : ℤ) (now : ℚ) : ℤ :=
  ⌊now / (window_seconds : ℚ)⌋ * window_seconds

/-- The count C3 tests against: the stored count when the stored window
start equals ws, else 0 (the reset). -/
def effCount (l : FixedWindowCounter) (key : String) (ws : ℤ) : Nat :=
  match l.windows key with
  | some win => if win.start = ws then win.count else 0
  | none => 0

/-- FixedWindowCounter.allow_request: grant and increment iff the current
window's count is below max_requests. -/
def allow_request (l : FixedWindowCounter) (key : String) (now : ℚ) :
    Bool × FixedWindowCounter :=
  let wl := get_current_window l key now
  if wl.1.count < l.max_requests then
    (true, { wl.2 with windows := updMap wl.2.windows key (some ⟨wl.1.start, wl.1.count + 1⟩) })
  else
    (false, wl.2)

end FixedWindowCounter

end RateLimiting

open Gateway Gateway.CircuitBreaker

theorem recordFailures_append (cb : CircuitBreaker) (l₁ l₂ : List ℚ) :
    recordFailures cb (l₁ ++ l₂) = recordFailures (recordFailures cb l₁) l₂ :=
  List.foldl_append ..

theorem recordFailures_config (cb : CircuitBreaker) (times : List ℚ) :
    (recordFailures cb times).failure_threshold = cb.failure_threshold ∧
    (recordFailures cb times).timeout_seconds = cb.timeout_seconds := by
  induction times generalizing cb with
  | nil => exact ⟨rfl, rfl⟩
  | cons t ts ih => simpa [recordFailures, record_failure] using ih (record_failure cb t)

theorem recordFailures_count (cb : CircuitBreaker) (times : List ℚ) :
    (recordFailures cb times).failure_count = cb.failure_count + times.length := by
  induction times generalizing cb with
  | nil => simp [recordFailures]
  | cons t ts ih =>
    have h1 := ih (record_failure cb t)
    simp only [recordFailures, List.foldl_cons] at h1 ⊢
    rw [h1]
    simp only [record_failure, List.length_cons]
    omega

theorem recordFailures_last (cb : CircuitBreaker) (times : List ℚ) (t : ℚ)
    (h : times.getLast? = some t) :
    (recordFailures cb times).last_failure_time = some t := by
  have hne : times ≠ [] := by
    intro he; rw [he] at h; simp at h
  rw [← List.dropLast_append_getLast hne, recordFailures_append]
  have ht : times.getLast hne = t := by
    have := List.getLast?_eq_getLast times hne
    rw [h] at this
    exact (Option.some_injective _ this.symm)
  simp [recordFailures, record_failure, ht]

/-- If the failures recorded reach the threshold, the last record_failure
call opens the circuit. -/
theorem recordFailures_opens (cb : CircuitBreaker) (times : List ℚ)
    (hne : times ≠ [])
    (hth : cb.failure_threshold ≤ cb.failure_count + times.length) :
    (recordFailures cb times).state = .opened := by
  rw [← List.dropLast_append_getLast hne, recordFailures_append]
  set cb' := recordFailures cb times.dropLast with hcb'
  have hcount : cb'.failure_count = cb.failure_count + times.dropLast.length :=
    recordFailures_count cb times.dropLast
  have hconf : cb'.failure_threshold = cb.failure_threshold :=
    (recordFailures_config cb times.dropLast).1
  have hlen : times.dropLast.length + 1 = times.length := by
    have := List.length_dropLast times
    have hpos : 0 < times.length := List.length_pos.mpr hne
    omega
  simp only [recordFailures, List.foldl_cons, List.foldl_nil, record_failure]
  have : cb'.failure_threshold ≤ cb'.failure_count + 1 := by
    rw [hconf, hcount]; omega
  simp [this]

/-- C1: CircuitBreaker full cycle. From the initial CLOSED breaker, after
`failure_threshold` consecutive record_failure calls (threshold at least 1),
the state is OPEN and can_attempt is false while less than timeout_seconds
have elapsed since the last failure; once at least timeout_seconds have
elapsed, can_attempt returns true and moves the state to HALF_OPEN; a
subsequent record_success yields state CLOSED and failure_count 0. -/
theorem circuit_breaker_full_cycle
    (ft : Nat) (ts : ℚ) (times : List ℚ) (t_last now now' : ℚ)
    (hft : 1 ≤ ft) (hlen : times.length = ft)
    (hlast : times.getLast? = some t_last)
    (hearly : now - t_last < ts) (hlate : ts ≤ now' - t_last) :
    ((recordFailures (init ft ts) times).state = .opened ∧
      (can_attempt (recordFailures (init ft ts) times) now).1 = false) ∧
    (can_attempt (can_attempt (recordFailures (init ft ts) times) now).2 now').1 = true ∧
    (can_attempt (can_attempt (recordFailures (init ft ts) times) now).2 now').2.state = .halfOpen ∧
    (record_success
      (can_attempt (can_attempt (recordFailures (init ft ts) times) now).2 now').2).state = .closed ∧
    (record_success
      (can_attempt (can_attempt (recordFailures (init ft ts) times) now).2 now').2).failure_count = 0 := by
  have hne : times ≠ [] := by
    intro he; rw [he] at hlen; simp at hlen; omega
  set cb := recordFailures (init ft ts) times with hcb
  have hstate : cb.state = .opened := by
    apply recordFailures_opens
    · exact hne
    · simp [init, hlen]
  have hlastt : cb.last_failure_time = some t_last :=
    recordFailures_last _ _ _ hlast
  have hts : cb.timeout_seconds = ts := (recordFailures_config _ _).2
  have h1 : can_attempt cb now = (false, cb) := by
    simp [can_attempt, hstate, hlastt, hts, not_le.mpr hearly]
  have h2 : can_attempt cb now' = (true, { cb with state := .halfOpen }) := by
    simp [can_attempt, hstate, hlastt, hts, hlate]
  refine ⟨⟨hstate, by rw [h1]⟩, ?_, ?_, ?_, ?_⟩
  · rw [h1, h2]
  · rw [h1, h2]
  · rw [h1, h2]; simp [record_success]
  · rw [h1, h2]; simp [record_success]

/-- C1 witness: threshold 2, timeout 30; failures at times 0 and 10;
can_attempt is false at time 39 and true at time 40. -/
theorem circuit_breaker_full_cycle_witness :
    (1 ≤ 2 ∧ ([(0 : ℚ), 10]).length = 2 ∧ ([(0 : ℚ), 10]).getLast? = some 10 ∧
      (39 : ℚ) - 10 < 30 ∧ (30 : ℚ) ≤ 40 - 10) ∧
    ((recordFailures (init 2 30) [(0 : ℚ), 10]).state = .opened ∧
      (can_attempt (recordFailures (init 2 30) [(0 : ℚ), 10]) 39).1 = false) ∧
    (can_attempt (can_attempt (recordFailures (init 2 30) [(0 : ℚ), 10]) 39).2 40).1 = true ∧
    (can_attempt (can_attempt (recordFailures (init 2 30) [(0 : ℚ), 10]) 39).2 40).2.state = .halfOpen ∧
    (record_success
      (can_attempt (can_attempt (recordFailures (init 2 30) [(0 : ℚ), 10]) 39).2 40).2).state = .closed ∧
    (record_success
      (can_attempt (can_attempt (recordFailures (init 2 30) [(0 : ℚ), 10]) 39).2 40).2).failure_count = 0 :=
  ⟨⟨by decide, by decide, by decide, by norm_num, by norm_num⟩,
    circuit_breaker_full_cycle 2 30 [0, 10] 10 39 40
      (by decide) (by decide) (by decide) (by norm_num) (by norm_num)⟩

/-- C9: record_success sets failure_count to 0, maps HALF_OPEN to CLOSED and
leaves any other state (in particular OPEN) unchanged, and never changes
last_failure_time, failure_threshold or timeout_seconds. -/
theorem record_success_frame (cb : CircuitBreaker) :
    (record_success cb).failure_count = 0 ∧
    (record_success cb).state =
      (match cb.state with
        | .halfOpen => .closed
        | s => s) ∧
    (record_success cb).last_failure_time = cb.last_failure_time ∧
    (record_success cb).failure_threshold = cb.failure_threshold ∧
    (record_success cb).timeout_seconds = cb.timeout_seconds := by
  refine ⟨rfl, ?_, rfl, rfl, rfl⟩
  cases h : cb.state <;> simp [record_success, h]

namespace RateLimiting.TokenBucketLimiter

theorem allow_request_config (l : TokenBucketLimiter) (key : String)
    (now needed : ℚ) :
    (allow_request l key now needed).2.capacity = l.capacity ∧
    (allow_request l key now needed).2.refill_rate = l.refill_rate := by
  cases h : l.buckets key <;>
    simp only [allow_request, get_bucket, h] <;> split <;> exact ⟨rfl, rfl⟩

/-- One allow_request call preserves the bucket invariant, restamped at the
time of the call. -/
theorem allow_request_inv (l : TokenBucketLimiter) (key : String)
    (now needed t : ℚ)
    (hcap : 0 ≤ l.capacity) (hrate : 0 ≤ l.refill_rate)
    (hneed : 0 ≤ needed) (ht : t ≤ now) (hinv : BucketsInv l t) :
    BucketsInv (allow_request l key now needed).2 now := by
  have hcap2 : (allow_request l key now needed).2.capacity = l.capacity :=
    (allow_request_config l key now needed).1
  intro k b hk
  rw [hcap2]
  by_cases hkk : k = key
  case neg =>
    have hold : l.buckets k = some b := by
      cases h : l.buckets key <;>
        simp only [allow_request, get_bucket, h] at hk <;>
        split at hk <;> simpa [updMap, hkk] using hk
    obtain ⟨ha, hb, hc⟩ := hinv k b hold
    exact ⟨ha, hb, by linarith⟩
  case pos =>
    subst hkk
    cases h : l.buckets k with
    | some b₀ =>
      obtain ⟨h0, hcapb, hlu⟩ := hinv k b₀ h
      have hel : 0 ≤ (now - b₀.last_update) * l.refill_rate :=
        mul_nonneg (by linarith) hrate
      simp only [allow_request, get_bucket, h, refill_tokens] at hk
      split at hk
      case isTrue hif =>
        simp only [updMap, ite_true, eq_self_iff_true, Option.some.injEq] at hk
        rw [← hk]
        refine ⟨sub_nonneg.mpr hif, ?_, le_refl _⟩
        have := min_le_left l.capacity (b₀.tokens + (now - b₀.last_update) * l.refill_rate)
        dsimp only
        linarith
      case isFalse hif =>
        simp only [updMap, ite_true, eq_self_iff_true, Option.some.injEq] at hk
        rw [← hk]
        exact ⟨le_min hcap (by linarith), min_le_left _ _, le_refl _⟩
    | none =>
      simp only [allow_request, get_bucket, h, refill_tokens, sub_self,
        zero_mul, add_zero, min_self] at hk
      split at hk
      case isTrue hif =>
        simp only [updMap, ite_true, eq_self_iff_true, Option.some.injEq] at hk
        rw [← hk]
        exact ⟨sub_nonneg.mpr hif, by dsimp only; linarith, le_refl _⟩
      case isFalse hif =>
        simp only [updMap, ite_true, eq_self_iff_true, Option.some.injEq] at hk
        rw [← hk]
        exact ⟨hcap, le_refl _, le_refl _⟩

theorem processCalls_inv (calls : List TBCall) (l : TokenBucketLimiter) (t : ℚ)
    (hcap : 0 ≤ l.capacity) (hrate : 0 ≤ l.refill_rate)
    (hchain : List.Chain (· ≤ ·) t (calls.map TBCall.time))
    (hneed : ∀ c ∈ calls, 0 ≤ c.needed)
    (hinv : BucketsInv l t) :
    ∃ t', BucketsInv (processCalls l calls) t' ∧
      (processCalls l calls).capacity = l.capacity := by
  induction calls generalizing l t with
  | nil => exact ⟨t, hinv, rfl⟩
  | cons c cs ih =>
    rw [List.map_cons, List.chain_cons] at hchain
    obtain ⟨htc, hchain'⟩ := hchain
    have hconf := allow_request_config l c.key c.time c.needed
    have hstep := allow_request_inv l c.key c.time c.needed t hcap hrate
      (hneed c (by simp)) htc hinv
    have hrec := ih (allow_request l c.key c.time c.needed).2 c.time
      (by rw [hconf.1]; exact hcap) (by rw [hconf.2]; exact hrate)
      hchain' (fun c' hc' => hneed c' (by simp [hc'])) hstep
    simp only [processCalls, List.foldl_cons] at hrec ⊢
    obtain ⟨t', h1, h2⟩ := hrec
    exact ⟨t', h1, h2.trans hconf.1⟩

/-- C2: token bucket capacity bound. For every nonnegative capacity and
refill rate, every finite sequence of allow_request calls with nonnegative
token needs made at non-decreasing times, and every key, the stored tokens
value satisfies 0 <= tokens <= capacity after the calls (hence after every
call, prefixes of valid call sequences being valid). -/
theorem token_bucket_capacity_bound (capacity refill_rate : ℚ)
    (calls : List TBCall)
    (hcap : 0 ≤ capacity) (hrate : 0 ≤ refill_rate)
    (hchron : List.Chain' (· ≤ ·) (calls.map TBCall.time))
    (hneed : ∀ c ∈ calls, 0 ≤ c.needed) :
    ∀ k b, (processCalls (init capacity refill_rate) calls).buckets k = some b →
      0 ≤ b.tokens ∧ b.tokens ≤ capacity := by
  cases calls with
  | nil =>
    intro k b hk
    simp [processCalls, init] at hk
  | cons c cs =>
    have hchain : List.Chain (· ≤ ·) c.time ((c :: cs).map TBCall.time) := by
      rw [List.map_cons, List.chain_cons]
      refine ⟨le_refl _, ?_⟩
      simpa [List.Chain'] using hchron
    have hvac : BucketsInv (init capacity refill_rate) c.time := by
      intro k b hk
      simp [init] at hk
    obtain ⟨t', hinv, hcapEq⟩ :=
      processCalls_inv (c :: cs) (init capacity refill_rate) c.time hcap hrate
        hchain hneed hvac
    intro k b hk
    obtain ⟨h1, h2, _⟩ := hinv k b hk
    exact ⟨h1, by rwa [hcapEq] at h2⟩

/-- C2 witness: capacity 5, refill rate 2, a single call needing 1 token at
time 0; the stored bucket holds 4 tokens, within [0, 5]. -/
theorem token_bucket_capacity_bound_witness :
    (0 ≤ (5 : ℚ) ∧ 0 ≤ (2 : ℚ) ∧
      List.Chain' (· ≤ ·) (([TBCall.mk "k" 0 1]).map TBCall.time) ∧
      (∀ c ∈ [TBCall.mk "k" 0 1], 0 ≤ c.needed) ∧
      (processCalls (init (5 : ℚ) 2) [TBCall.mk "k" 0 1]).buckets "k" =
        some ⟨4, 0⟩) ∧
    0 ≤ (Bucket.mk 4 0).tokens ∧ (Bucket.mk 4 0).tokens ≤ 5 :=
  ⟨⟨by norm_num, by norm_num, by simp, by decide,
      by norm_num [processCalls, allow_request, get_bucket, refill_tokens, init, updMap]⟩,
    token_bucket_capacity_bound 5 2 [TBCall.mk "k" 0 1]
      (by norm_num) (by norm_num) (by simp) (by decide) "k" ⟨4, 0⟩
      (by norm_num [processCalls, allow_request, get_bucket, refill_tokens, init, updMap])⟩

/-- C10: a bucket for a never-before-seen key is created full (tokens =
capacity, stamped with the call time), so the first allow_request with
0 < tokens_needed <= capacity is granted. -/
theorem token_bucket_fresh_key_burst (l : TokenBucketLimiter) (key : String)
    (now tokens_needed : ℚ)
    (hfresh : l.buckets key = none)
    (hpos : 0 < tokens_needed) (hle : tokens_needed ≤ l.capacity) :
    (get_bucket l key now).1 = ⟨l.capacity, now⟩ ∧
    (allow_request l key now tokens_needed).1 = true ∧
    (allow_request l key now tokens_needed).2.buckets key =
      some ⟨l.capacity - tokens_needed, now⟩ := by
  have hfreshb : (get_bucket l key now).1 = ⟨l.capacity, now⟩ := by
    simp [get_bucket, hfresh]
  refine ⟨hfreshb, ?_, ?_⟩ <;>
    simp [allow_request, get_bucket, hfresh, refill_tokens, hle, updMap]

/-- C10 witness: capacity 10, refill rate 2, fresh key, first call needing
10 tokens at time 7 is granted and leaves an empty but stamped bucket. -/
theorem token_bucket_fresh_key_burst_witness :
    ((init (10 : ℚ) 2).buckets "fresh" = none ∧ (0 : ℚ) < 10 ∧
      (10 : ℚ) ≤ (init (10 : ℚ) 2).capacity) ∧
    (get_bucket (init (10 : ℚ) 2) "fresh" 7).1 = ⟨10, 7⟩ ∧
    (allow_request (init (10 : ℚ) 2) "fresh" 7 10).1 = true ∧
    (allow_request (init (10 : ℚ) 2) "fresh" 7 10).2.buckets "fresh" =
      some ⟨(10 : ℚ) - 10, 7⟩ :=
  ⟨⟨by decide, by norm_num, by decide⟩,
    token_bucket_fresh_key_burst (init 10 2) "fresh" 7 10
      (by decide) (by norm_num) (by decide)⟩

end RateLimiting.TokenBucketLimiter

namespace RateLimiting.SlidingWindowLimiter

/-- The head of what dropWhile leaves fails the predicate. -/
theorem dropWhile_head_false {α : Type} (p : α → Bool) (l : List α) (t : α)
    (rest : List α) (h : l.dropWhile p = t :: rest) : p t = false := by
  induction l with
  | nil => simp at h
  | cons a l ih =>
    cases hpa : p a with
    | true =>
      rw [List.dropWhile_cons_of_pos hpa] at h
      exact ih h
    | false =>
      rw [List.dropWhile_cons_of_neg (by simp [hpa])] at h
      cases h
      exact hpa

/-- When the stored head (if any) is still inside the window, eviction is
a no-op and get_reset_time agrees with the evicted form. -/
theorem reset_time_eq_of_head (l : SlidingWindowLimiter) (key : String) (now : ℚ)
    (h : ∀ t rest, l.requests key = t :: rest → now - l.window_seconds ≤ t) :
    get_reset_time l key now = resetTimeSpec l key now := by
  cases hreq : l.requests key with
  | nil => simp [get_reset_time, resetTimeSpec, hreq]
  | cons t rest =>
    have ht := h t rest hreq
    have hp : (decide (t < now - l.window_seconds)) = false := by
      simpa using not_lt.mpr ht
    simp [get_reset_time, resetTimeSpec, hreq, List.dropWhile_cons, hp]

theorem allow_request_window (l : SlidingWindowLimiter) (key : String) (now : ℚ) :
    (allow_request l key now).2.window_seconds = l.window_seconds ∧
    (allow_request l key now).2.max_requests = l.max_requests := by
  simp only [allow_request, cleanup_old_requests]
  split <;> exact ⟨rfl, rfl⟩

/-- C4 counterexample: limiter with max_requests 2, window 10 seconds;
allow_request for key k at times 0 and 5 (both granted, stored sequence
[0, 5]); get_reset_time at time 12 returns 0, while the claim's evicted
form (surviving sequence [5]) gives max(0, 5 + 10 - 12) = 3. -/
theorem sliding_window_reset_time_counterexample :
    (allow_request (init 2 10) "k" 0).1 = true ∧
    (allow_request (allow_request (init 2 10) "k" 0).2 "k" 5).1 = true ∧
    (allow_request (allow_request (init 2 10) "k" 0).2 "k" 5).2.requests "k" = [0, 5] ∧
    get_reset_time (allow_request (allow_request (init 2 10) "k" 0).2 "k" 5).2 "k" 12 = 0 ∧
    resetTimeSpec (allow_request (allow_request (init 2 10) "k" 0).2 "k" 5).2 "k" 12 = 3 ∧
    (0 : ℚ) ≠ 3 := by
  refine ⟨?_, ?_, ?_, ?_, ?_, by norm_num⟩ <;>
    norm_num [allow_request, cleanup_old_requests, get_reset_time, resetTimeSpec,
      init, updMap, List.dropWhile]

/-- C4 amended: get_reset_time performs no eviction; it returns 0 when the
stored sequence is empty and max(0, stored_head + window_seconds - now)
otherwise. This coincides with the claim's evicted form whenever the stored
head is still within the window, or when every stored timestamp has expired;
in particular it coincides when get_reset_time runs at the same instant as
an allow_request for the same key (the window length being nonnegative). -/
theorem sliding_window_reset_time_amended (l : SlidingWindowLimiter)
    (key : String) (now : ℚ) :
    (get_reset_time l key now =
      match l.requests key with
      | [] => 0
      | t :: _ => max 0 (t + l.window_seconds - now)) ∧
    (∀ t rest, l.requests key = t :: rest → now - l.window_seconds ≤ t →
      get_reset_time l key now = resetTimeSpec l key now) ∧
    ((∀ t ∈ l.requests key, t < now - l.window_seconds) →
      get_reset_time l key now = resetTimeSpec l key now) ∧
    (0 ≤ l.window_seconds →
      get_reset_time (allow_request l key now).2 key now =
        resetTimeSpec (allow_request l key now).2 key now) := by
  refine ⟨rfl, ?_, ?_, ?_⟩
  · intro t rest hreq ht
    apply reset_time_eq_of_head
    intro t' rest' hreq'
    rw [hreq] at hreq'
    cases hreq'
    exact ht
  · intro hall
    have hnil : (l.requests key).dropWhile
        (fun x => decide (x < now - l.window_seconds)) = [] :=
      List.dropWhile_eq_nil_iff.mpr (fun x hx => by simpa using hall x hx)
    cases hreq : l.requests key with
    | nil => simp [get_reset_time, resetTimeSpec, hreq]
    | cons t rest =>
      have ht : t < now - l.window_seconds := hall t (by rw [hreq]; simp)
      rw [hreq] at hnil
      have hmax : max 0 (t + l.window_seconds - now) = 0 :=
        max_eq_left (by linarith)
      simp [get_reset_time, resetTimeSpec, hreq, hnil, hmax]
  · intro hw
    set cleaned := (l.requests key).dropWhile
      (fun x => decide (x < now - l.window_seconds)) with hcleaned
    have hreqs : (allow_request l key now).2.requests key =
        if cleaned.length < l.max_requests then cleaned ++ [now] else cleaned := by
      simp only [allow_request, cleanup_old_requests, updMap, ← hcleaned,
        ite_true, eq_self_iff_true]
      split <;> simp [updMap]
    apply reset_time_eq_of_head
    intro t rest hreq'
    rw [(allow_request_window l key now).1]
    rw [hreqs] at hreq'
    split at hreq'
    · cases hcl : cleaned with
      | nil =>
        rw [hcl] at hreq'
        simp only [List.nil_append] at hreq'
        cases hreq'
        linarith
      | cons c cs =>
        rw [hcl] at hreq'
        simp only [List.cons_append] at hreq'
        obtain ⟨rfl, -⟩ := List.cons.inj hreq'
        have := dropWhile_head_false _ _ _ _ (hcleaned ▸ hcl)
        simpa using this
    · have := dropWhile_head_false _ _ _ _ (hcleaned ▸ hreq')
      simpa using this

end RateLimiting.SlidingWindowLimiter

/-- C4 amended witness: fresh limiter (max 2, window 10), key k, time 3:
the stored-sequence formula holds, and right after an allow_request at the
same instant the code value agrees with the evicted form. -/
theorem sliding_window_reset_time_amended_witness :
    (RateLimiting.SlidingWindowLimiter.get_reset_time
        (RateLimiting.SlidingWindowLimiter.init 2 10) "k" 3 =
      (match (RateLimiting.SlidingWindowLimiter.init 2 10).requests "k" with
        | [] => 0
        | t :: _ =>
          max 0 (t + (RateLimiting.SlidingWindowLimiter.init 2 10).window_seconds - 3))) ∧
    (0 ≤ (RateLimiting.SlidingWindowLimiter.init 2 10).window_seconds ∧
      RateLimiting.SlidingWindowLimiter.get_reset_time
          (RateLimiting.SlidingWindowLimiter.allow_request
            (RateLimiting.SlidingWindowLimiter.init 2 10) "k" 3).2 "k" 3 =
        RateLimiting.SlidingWindowLimiter.resetTimeSpec
          (RateLimiting.SlidingWindowLimiter.allow_request
            (RateLimiting.SlidingWindowLimiter.init 2 10) "k" 3).2 "k" 3) :=
  ⟨(RateLimiting.SlidingWindowLimiter.sliding_window_reset_time_amended
      (RateLimiting.SlidingWindowLimiter.init 2 10) "k" 3).1,
    by norm_num [RateLimiting.SlidingWindowLimiter.init],
    (RateLimiting.SlidingWindowLimiter.sliding_window_reset_time_amended
      (RateLimiting.SlidingWindowLimiter.init 2 10) "k" 3).2.2.2
      (by norm_num [RateLimiting.SlidingWindowLimiter.init])⟩

namespace RateLimiting.FixedWindowCounter

/-- For a nonnegative argument, Python int() truncation is the floor. -/
theorem pyInt_eq_floor (q : ℚ) (h : 0 ≤ q) : pyInt q = ⌊q⌋ := by
  simp [pyInt, not_lt.mpr h]

theorem get_current_window_fst (l : FixedWindowCounter) (key : String) (now : ℚ) :
    (get_current_window l key now).1 =
      ⟨window_start l.window_seconds now,
        effCount l key (window_start l.window_seconds now)⟩ := by
  cases h : l.windows key with
  | none => simp [get_current_window, effCount, h]
  | some win =>
    obtain ⟨ws0, c0⟩ := win
    by_cases hs : ws0 = window_start l.window_seconds now
    · subst hs
      simp [get_current_window, effCount, h]
    · simp [get_current_window, effCount, h, hs]

theorem get_current_window_snd (l : FixedWindowCounter) (key : String) (now : ℚ) :
    (get_current_window l key now).2.windows key =
      some ⟨window_start l.window_seconds now,
        effCount l key (window_start l.window_seconds now)⟩ ∧
    (get_current_window l key now).2.max_requests = l.max_requests := by
  cases h : l.windows key with
  | none => simp [get_current_window, effCount, h, updMap]
  | some win =>
    obtain ⟨ws0, c0⟩ := win
    by_cases hs : ws0 = window_start l.window_seconds now
    · subst hs
      simp [get_current_window, effCount, h]
    · simp [get_current_window, effCount, h, hs, updMap]

/-- C3: FixedWindowCounter.allow_request at a nonnegative time with a
positive window length. With ws = floor(now / window_seconds) *
window_seconds, the counter tested is the stored count when the stored
window start equals ws and 0 otherwise (the reset, which is persisted); the
call grants and increments exactly when that count is below max_requests,
and does not increment otherwise. -/
theorem fixed_window_allow_request (l : FixedWindowCounter) (key : String)
    (now : ℚ) (hnow : 0 ≤ now) (hw : 0 < l.window_seconds) :
    (allow_request l key now).1 =
      decide (effCount l key (windowStartSpec l.window_seconds now) < l.max_requests) ∧
    (allow_request l key now).2.windows key =
      some ⟨windowStartSpec l.window_seconds now,
        if effCount l key (windowStartSpec l.window_seconds now) < l.max_requests
        then effCount l key (windowStartSpec l.window_seconds now) + 1
        else effCount l key (windowStartSpec l.window_seconds now)⟩ := by
  have hq : 0 ≤ now / (l.window_seconds : ℚ) :=
    div_nonneg hnow (by exact_mod_cast hw.le)
  have hws : window_start l.window_seconds now = windowStartSpec l.window_seconds now := by
    simp [window_start, windowStartSpec, pyInt, not_lt.mpr hq]
  have hfst := get_current_window_fst l key now
  have hsnd := (get_current_window_snd l key now).1
  rw [hws] at hfst hsnd
  constructor
  · simp only [allow_request, hfst]
    split <;> rename_i hc <;> simp_all
  · simp only [allow_request, hfst]
    split <;> rename_i hc
    · simp [updMap, hc]
    · simp [hsnd, hc]

/-- C3 witness: fresh counter (max 2, window 60), key k, time 125: the
window start is 120, the reset count 0 is below 2, so the call grants and
stores the window (120, 1). -/
theorem fixed_window_allow_request_witness :
    ((0 : ℚ) ≤ 125 ∧ (0 : ℤ) < (init 2 60).window_seconds) ∧
    (allow_request (init 2 60) "k" 125).1 =
      decide (effCount (init 2 60) "k" (windowStartSpec (init 2 60).window_seconds 125) <
        (init 2 60).max_requests) ∧
    (allow_request (init 2 60) "k" 125).2.windows "k" =
      some ⟨windowStartSpec (init 2 60).window_seconds 125,
        if effCount (init 2 60) "k" (windowStartSpec (init 2 60).window_seconds 125) <
            (init 2 60).max_requests
        then effCount (init 2 60) "k" (windowStartSpec (init 2 60).window_seconds 125) + 1
        else effCount (init 2 60) "k" (windowStartSpec (init 2 60).window_seconds 125)⟩ :=
  ⟨⟨by norm_num, by norm_num [init]⟩,
    fixed_window_allow_request (init 2 60) "k" 125 (by norm_num) (by norm_num [init])⟩

end RateLimiting.FixedWindowCounter

namespace Gateway.ServiceRegistry

/-- One round-robin step on a two-URL service: serve by parity, flip the
index, keep the URL list. -/
theorem get_service_url_two (r : ServiceRegistry) (name u1 u2 : String) (i : Nat)
    (hs : r.services name = some [u1, u2])
    (hi : (r.current_index name).getD 0 = i) (hilt : i < 2) :
    (get_service_url r name).1 = some (if i = 0 then u1 else u2) ∧
    (get_service_url r name).2.services name = some [u1, u2] ∧
    (get_service_url r name).2.current_index name = some ((i + 1) % 2) := by
  interval_cases i <;>
    simp [get_service_url, hs, hi, updMap]

theorem iterState_two (r : ServiceRegistry) (name u1 u2 : String)
    (hs : r.services name = some [u1, u2]) (hidx : r.current_index name = none)
    (n : Nat) :
    (iterState r name n).services name = some [u1, u2] ∧
    ((iterState r name n).current_index name).getD 0 = n % 2 := by
  induction n with
  | zero => simp [iterState, hs, hidx]
  | succ n ih =>
    have h2 := get_service_url_two (iterState r name n) name u1 u2 (n % 2)
      ih.1 ih.2 (Nat.mod_lt _ (by norm_num))
    refine ⟨?_, ?_⟩
    · simpa [iterState] using h2.2.1
    · have : ((iterState r name (n + 1)).current_index name).getD 0 = (n % 2 + 1) % 2 := by
        simp [iterState, h2.2.2]
      rw [this]
      omega

/-- C5: round-robin selection. get_service_url returns None for an unknown
service or an empty URL list (leaving the registry untouched); otherwise it
returns the URL at the stored index (0 when absent) and advances the index
modulo the list length; and for a service holding exactly two URLs with no
index yet, the n-th call returns the first URL for even n and the second for
odd n — strict alternation for any number of calls. -/
theorem round_robin_selection (r : ServiceRegistry) (name : String) :
    ((r.services name = none ∨ r.services name = some []) →
      (get_service_url r name).1 = none ∧ (get_service_url r name).2 = r) ∧
    (∀ urls i, r.services name = some urls → urls ≠ [] →
      (r.current_index name).getD 0 = i → ∀ hilt : i < urls.length,
      (get_service_url r name).1 = some (urls.get ⟨i, hilt⟩) ∧
      (get_service_url r name).2.current_index name = some ((i + 1) % urls.length)) ∧
    (∀ u1 u2, r.services name = some [u1, u2] → r.current_index name = none →
      ∀ n, nthUrl r name n = some (if n % 2 = 0 then u1 else u2)) := by
  refine ⟨?_, ?_, ?_⟩
  · rintro (h | h) <;> simp [get_service_url, h]
  · intro urls i hs hne hi hilt
    have hget : urls[i]? = some urls[i] := List.getElem?_eq_getElem hilt
    simp [get_service_url, hs, hne, hi, hget, updMap]
  · intro u1 u2 hs hidx n
    have hit := iterState_two r name u1 u2 hs hidx n
    have h2 := get_service_url_two (iterState r name n) name u1 u2 (n % 2)
      hit.1 hit.2 (Nat.mod_lt _ (by norm_num))
    rw [nthUrl, h2.1]

/-- C5 witness: register two URLs for a fresh service on the default
registry; calls 0..3 alternate a, b, a, b. -/
theorem round_robin_selection_witness :
    ((register_service (register_service init "svc" "a") "svc" "b").services "svc" =
        some ["a", "b"] ∧
      (register_service (register_service init "svc" "a") "svc" "b").current_index "svc" =
        none) ∧
    nthUrl (register_service (register_service init "svc" "a") "svc" "b") "svc" 0 =
      some (if 0 % 2 = 0 then "a" else "b") ∧
    nthUrl (register_service (register_service init "svc" "a") "svc" "b") "svc" 3 =
      some (if 3 % 2 = 0 then "a" else "b") :=
  ⟨⟨by decide, by decide⟩,
    ((round_robin_selection
        (register_service (register_service init "svc" "a") "svc" "b") "svc").2.2
      "a" "b" (by decide) (by decide) 0),
    ((round_robin_selection
        (register_service (register_service init "svc" "a") "svc" "b") "svc").2.2
      "a" "b" (by decide) (by decide) 3)⟩

end Gateway.ServiceRegistry

namespace Gateway

/-- Registering a URL already present for the name is a no-op. -/
theorem register_service_noop (r : ServiceRegistry) (name url : String)
    (urls : List String) (h : r.services name = some urls) (hmem : url ∈ urls) :
    ServiceRegistry.register_service r name url = r := by
  simp [ServiceRegistry.register_service, h, hmem]

/-- C6: register_service is idempotent — a second identical call returns the
registry unchanged; after the call the URL list for the name contains the
url exactly once (provided it appeared at most once before, as in every
state reachable through this API); other services' lists, every round-robin
index and every circuit breaker are untouched. -/
theorem register_service_idempotent (r : ServiceRegistry) (name url : String)
    (hcount : ((r.services name).getD []).count url ≤ 1) :
    ServiceRegistry.register_service
        (ServiceRegistry.register_service r name url) name url =
      ServiceRegistry.register_service r name url ∧
    (∃ urls, (ServiceRegistry.register_service r name url).services name = some urls ∧
      urls.count url = 1) ∧
    (∀ n, n ≠ name →
      (ServiceRegistry.register_service r name url).services n = r.services n) ∧
    (ServiceRegistry.register_service r name url).current_index = r.current_index ∧
    (ServiceRegistry.register_service r name url).circuit_breakers = r.circuit_breakers := by
  cases h : r.services name with
  | none =>
    have hreg : ServiceRegistry.register_service r name url =
        { r with services :=
            updMap (updMap r.services name (some [])) name (some [url]) } := by
      simp [ServiceRegistry.register_service, h, updMap]
    have hreg2 : (ServiceRegistry.register_service r name url).services name =
        some [url] := by
      rw [hreg]; simp [updMap]
    refine ⟨?_, ⟨[url], hreg2, by simp⟩, ?_, ?_, ?_⟩
    · exact register_service_noop _ name url [url] hreg2 (by simp)
    · intro n hn
      rw [hreg]
      simp [updMap, hn]
    · rw [hreg]
    · rw [hreg]
  | some urls =>
    by_cases hmem : url ∈ urls
    · have hreg : ServiceRegistry.register_service r name url = r :=
        register_service_noop r name url urls h hmem
      have hone : urls.count url = 1 := by
        have hpos : 0 < urls.count url := List.count_pos_iff.mpr hmem
        have hle : urls.count url ≤ 1 := by simpa [h] using hcount
        omega
      exact ⟨by rw [hreg]; exact hreg, ⟨urls, by rw [hreg, h], hone⟩,
        fun n _ => by rw [hreg], by rw [hreg], by rw [hreg]⟩
    · have hreg : ServiceRegistry.register_service r name url =
          { r with services := updMap r.services name (some (urls ++ [url])) } := by
        simp [ServiceRegistry.register_service, h, hmem]
      have hreg2 : (ServiceRegistry.register_service r name url).services name =
          some (urls ++ [url]) := by
        rw [hreg]; simp [updMap]
      have hzero : urls.count url = 0 := by
        simp [List.count_eq_zero, hmem]
      refine ⟨?_, ⟨urls ++ [url], hreg2, ?_⟩, ?_, ?_, ?_⟩
      · exact register_service_noop _ name url (urls ++ [url]) hreg2 (by simp)
      · simp [List.count_append, hzero]
      · intro n hn
        rw [hreg]
        simp [updMap, hn]
      · rw [hreg]
      · rw [hreg]

/-- C6 witness: registering a URL for a fresh service twice on the default
registry equals registering it once; every round-robin index is untouched. -/
theorem register_service_idempotent_witness :
    ((ServiceRegistry.init.services "billing").getD []).count "http://b1" ≤ 1 ∧
    ServiceRegistry.register_service
        (ServiceRegistry.register_service ServiceRegistry.init "billing" "http://b1")
        "billing" "http://b1" =
      ServiceRegistry.register_service ServiceRegistry.init "billing" "http://b1" ∧
    (ServiceRegistry.register_service ServiceRegistry.init "billing" "http://b1").current_index =
      ServiceRegistry.init.current_index :=
  ⟨by decide,
    (register_service_idempotent ServiceRegistry.init "billing" "http://b1" (by decide)).1,
    (register_service_idempotent ServiceRegistry.init "billing" "http://b1" (by decide)).2.2.2.1⟩

end Gateway

namespace Gateway

theorem setBreaker_breakers (r : ServiceRegistry) (n : String) (cb : CircuitBreaker) :
    (ServiceRegistry.setBreaker r n cb).circuit_breakers n = some cb := by
  simp [ServiceRegistry.setBreaker, updMap]

theorem get_circuit_breaker_frame (r : ServiceRegistry) (service_name : String) :
    (ServiceRegistry.get_circuit_breaker r service_name).2.current_index = r.current_index ∧
    (ServiceRegistry.get_circuit_breaker r service_name).2.services = r.services := by
  cases h : r.circuit_breakers service_name <;>
    simp [ServiceRegistry.get_circuit_breaker, h]

/-- C7: proxy failure isolation. Whenever the service's (possibly lazily
created) circuit breaker refuses the attempt, proxy_request fails with the
circuit-open 503, the transport oracle is invoked zero times, and neither
the round-robin indices nor the service URL lists change. -/
theorem proxy_circuit_open (r : ServiceRegistry)
    (transport : String → TransportOutcome)
    (service_name path method : String) (now : ℚ)
    (hopen : (CircuitBreaker.can_attempt
      (ServiceRegistry.get_circuit_breaker r service_name).1 now).1 = false) :
    (proxy_request r transport service_name path method now).1 =
      .httpError 503
        ("Service " ++ service_name ++ " is currently unavailable (circuit open)") ∧
    (proxy_request r transport service_name path method now).2.2 = 0 ∧
    (∀ n, (proxy_request r transport service_name path method now).2.1.current_index n =
      r.current_index n) ∧
    (∀ n, (proxy_request r transport service_name path method now).2.1.services n =
      r.services n) := by
  have hfr := get_circuit_breaker_frame r service_name
  refine ⟨?_, ?_, ?_, ?_⟩ <;>
    simp [proxy_request, hopen, ServiceRegistry.setBreaker, hfr.1, hfr.2]

/-- C7 witness: the users breaker is OPEN with a failure at time 100 and a
30-second cooldown; at time 110 the proxy fails circuit-open, the transport
is never invoked and the round-robin index is untouched. -/
theorem proxy_circuit_open_witness :
    (CircuitBreaker.can_attempt
        (ServiceRegistry.get_circuit_breaker
          (ServiceRegistry.setBreaker ServiceRegistry.init "users"
            ⟨5, 30, 5, some 100, CircuitState.opened⟩) "users").1 110).1 = false ∧
    (proxy_request
        (ServiceRegistry.setBreaker ServiceRegistry.init "users"
          ⟨5, 30, 5, some 100, CircuitState.opened⟩)
        (fun _ => TransportOutcome.response ⟨200, ""⟩) "users" "/users" "GET" 110).1 =
      .httpError 503
        ("Service " ++ "users" ++ " is currently unavailable (circuit open)") ∧
    (proxy_request
        (ServiceRegistry.setBreaker ServiceRegistry.init "users"
          ⟨5, 30, 5, some 100, CircuitState.opened⟩)
        (fun _ => TransportOutcome.response ⟨200, ""⟩) "users" "/users" "GET" 110).2.2 = 0 ∧
    (proxy_request
        (ServiceRegistry.setBreaker ServiceRegistry.init "users"
          ⟨5, 30, 5, some 100, CircuitState.opened⟩)
        (fun _ => TransportOutcome.response ⟨200, ""⟩) "users" "/users" "GET" 110).2.1.current_index "users" =
      (ServiceRegistry.setBreaker ServiceRegistry.init "users"
        ⟨5, 30, 5, some 100, CircuitState.opened⟩).current_index "users" :=
  ⟨by norm_num [CircuitBreaker.can_attempt, ServiceRegistry.get_circuit_breaker,
      ServiceRegistry.setBreaker, ServiceRegistry.init, updMap],
    (proxy_circuit_open
      (ServiceRegistry.setBreaker ServiceRegistry.init "users"
        ⟨5, 30, 5, some 100, CircuitState.opened⟩)
      (fun _ => TransportOutcome.response ⟨200, ""⟩) "users" "/users" "GET" 110
      (by norm_num [CircuitBreaker.can_attempt, ServiceRegistry.get_circuit_breaker,
        ServiceRegistry.setBreaker, ServiceRegistry.init, updMap])).1,
    (proxy_circuit_open
      (ServiceRegistry.setBreaker ServiceRegistry.init "users"
        ⟨5, 30, 5, some 100, CircuitState.opened⟩)
      (fun _ => TransportOutcome.response ⟨200, ""⟩) "users" "/users" "GET" 110
      (by norm_num [CircuitBreaker.can_attempt, ServiceRegistry.get_circuit_breaker,
        ServiceRegistry.setBreaker, ServiceRegistry.init, updMap])).2.1,
    (proxy_circuit_open
      (ServiceRegistry.setBreaker ServiceRegistry.init "users"
        ⟨5, 30, 5, some 100, CircuitState.opened⟩)
      (fun _ => TransportOutcome.response ⟨200, ""⟩) "users" "/users" "GET" 110
      (by norm_num [CircuitBreaker.can_attempt, ServiceRegistry.get_circuit_breaker,
        ServiceRegistry.setBreaker, ServiceRegistry.init, updMap])).2.2.1 "users"⟩

/-- C8: breaker reachability semantics. With the breaker allowing the
attempt, a backend URL resolved and a supported method: if the transport
returns a response (any status code, 404 and 500 included) the stored
breaker becomes record_success of the post-can_attempt breaker — its
failure_count is 0, so it did not increase — and the call returns the
payload; if the transport raises a connection error or timeout the stored
breaker becomes record_failure and the call fails with a 503 carrying the
underlying error text. Exactly one transport call happens in both cases, so
record_failure runs if and only if the outbound call raised. -/
theorem proxy_breaker_reachability (r : ServiceRegistry)
    (transport : String → TransportOutcome)
    (service_name path method : String) (now : ℚ) (url : String)
    (hatt : (CircuitBreaker.can_attempt
      (ServiceRegistry.get_circuit_breaker r service_name).1 now).1 = true)
    (hurl : (ServiceRegistry.get_service_url
        (ServiceRegistry.setBreaker
          (ServiceRegistry.get_circuit_breaker r service_name).2 service_name
          (CircuitBreaker.can_attempt
            (ServiceRegistry.get_circuit_breaker r service_name).1 now).2)
        service_name).1 = some url)
    (hne : url ≠ "")
    (hm : method = "GET" ∨ method = "POST" ∨ method = "PUT" ∨ method = "DELETE") :
    (∀ resp, transport (url ++ path) = .response resp →
      (proxy_request r transport service_name path method now).1 =
        .success resp.status_code resp.text ∧
      (proxy_request r transport service_name path method now).2.1.circuit_breakers
          service_name =
        some (CircuitBreaker.record_success
          (CircuitBreaker.can_attempt
            (ServiceRegistry.get_circuit_breaker r service_name).1 now).2) ∧
      (CircuitBreaker.record_success
        (CircuitBreaker.can_attempt
          (ServiceRegistry.get_circuit_breaker r service_name).1 now).2).failure_count = 0 ∧
      (proxy_request r transport service_name path method now).2.2 = 1) ∧
    (∀ msg, transport (url ++ path) = .requestError msg →
      (proxy_request r transport service_name path method now).1 =
        .httpError 503 ("Service " ++ service_name ++ " unavailable: " ++ msg) ∧
      (proxy_request r transport service_name path method now).2.1.circuit_breakers
          service_name =
        some (CircuitBreaker.record_failure
          (CircuitBreaker.can_attempt
            (ServiceRegistry.get_circuit_breaker r service_name).1 now).2 now) ∧
      (proxy_request r transport service_name path method now).2.2 = 1) := by
  constructor
  · intro resp hresp
    refine ⟨?_, ?_, rfl, ?_⟩ <;>
      rcases hm with rfl | rfl | rfl | rfl <;>
      simp [proxy_request, hatt, hurl, hne, hresp, setBreaker_breakers]
  · intro msg hmsg
    refine ⟨?_, ?_, ?_⟩ <;>
      rcases hm with rfl | rfl | rfl | rfl <;>
      simp [proxy_request, hatt, hurl, hne, hmsg, setBreaker_breakers]

/-- C8 witness: default registry, users service, time 0, transport returning
a 404: the proxy returns the 404 payload (the breaker records a success),
and exactly one transport call happens. -/
theorem proxy_breaker_reachability_witness :
    ((CircuitBreaker.can_attempt
        (ServiceRegistry.get_circuit_breaker ServiceRegistry.init "users").1 0).1 = true ∧
      (ServiceRegistry.get_service_url
          (ServiceRegistry.setBreaker
            (ServiceRegistry.get_circuit_breaker ServiceRegistry.init "users").2 "users"
            (CircuitBreaker.can_attempt
              (ServiceRegistry.get_circuit_breaker ServiceRegistry.init "users").1 0).2)
          "users").1 = some "http://localhost:8001" ∧
      ("http://localhost:8001" : String) ≠ "" ∧
      (("GET" : String) = "GET" ∨ ("GET" : String) = "POST" ∨
        ("GET" : String) = "PUT" ∨ ("GET" : String) = "DELETE")) ∧
    (proxy_request ServiceRegistry.init
        (fun _ => TransportOutcome.response ⟨404, "nf"⟩) "users" "/u" "GET" 0).1 =
      .success (HttpResponse.mk 404 "nf").status_code (HttpResponse.mk 404 "nf").text ∧
    (proxy_request ServiceRegistry.init
        (fun _ => TransportOutcome.response ⟨404, "nf"⟩) "users" "/u" "GET" 0).2.2 = 1 :=
  ⟨⟨by decide, by decide, by decide, by decide⟩,
    ((proxy_breaker_reachability ServiceRegistry.init
        (fun _ => TransportOutcome.response ⟨404, "nf"⟩) "users" "/u" "GET" 0
        "http://localhost:8001" (by decide) (by decide) (by decide) (by decide)).1
      ⟨404, "nf"⟩ rfl).1,
    ((proxy_breaker_reachability ServiceRegistry.init
        (fun _ => TransportOutcome.response ⟨404, "nf"⟩) "users" "/u" "GET" 0
        "http://localhost:8001" (by decide) (by decide) (by decide) (by decide)).1
      ⟨404, "nf"⟩ rfl).2.2.2⟩

end Gateway
